import Mathlib

/-!
Verification of the algorithmic core of a personal-finance tracker
(debt payoff projection engine, projection ranker, recurring-obligation
reminder scheduler, and notification dispatcher).

The definitions below are shallow embeddings of the TypeScript source:
- the payoff computation and ranking come from the `payoffSummary` memo
  of the debt-manager component;
- the reminder computation comes from `calculateNotifications` in the
  application shell, and the action handlers (`handleAddDebt`,
  `handleMakePayment`, `sendSystemNotification`) from the same file.

Numeric amounts are modelled as rationals (an exact idealization of the
JS numbers on which the code only performs field arithmetic and
comparisons); the payoff horizon is modelled as `WithTop ℝ`, where `⊤`
stands for the JS floating-point `Infinity` that the code assigns to
unpayable debts, and the NPER amortization formula lives in `ℝ` via
`Real.log`.
-/

/-- Debt record, from the `Debt` shape of the snapshot:
`{id, name, initialAmount, currentAmount, minPayment, color, dueDay?, interestRate?}`. -/
structure Debt where
  id : String
  name : String
  initialAmount : ℚ
  currentAmount : ℚ
  minPayment : ℚ
  color : String
  dueDay : Option ℕ
  interestRate : Option ℚ
deriving DecidableEq

/-- Expense recurrence, from the string union `'Monthly' | 'Weekly' | 'Bi-weekly'`. -/
inductive Frequency where
  | monthly
  | weekly
  | biweekly
deriving DecidableEq

/-- Expense record, from the `Expense` shape of the snapshot:
`{id, name, amount, category, frequency?, dueDay}`. -/
structure Expense where
  id : String
  name : String
  amount : ℚ
  category : String
  frequency : Option Frequency
  dueDay : Option ℕ
deriving DecidableEq

/-- Income record `{id, source, amount}`. -/
structure Income where
  id : String
  source : String
  amount : ℚ
deriving DecidableEq

/-- Payment record `{id, debtId, amount, date, recordedBy}`. -/
structure Payment where
  id : String
  debtId : String
  amount : ℚ
  date : String
  recordedBy : String
deriving DecidableEq

/-- History entry `{date, totalDebt}`. -/
structure HistEntry where
  date : String
  totalDebt : ℚ
deriving DecidableEq

/-- The financial snapshot `FinancialState`. -/
structure FinState where
  debts : List Debt
  expenses : List Expense
  incomes : List Income
  payments : List Payment
  history : List HistEntry
deriving DecidableEq

/-- Monthly interest rate: `const r = (debt.interestRate || 0) / 100 / 12`.
JS `||` and `??` agree here: an absent rate and a zero rate both give `r = 0`. -/
def monthlyRate (interestRate : Option ℚ) : ℚ :=
  (interestRate.getD 0) / 100 / 12

/-- Payoff horizon in months of one debt, from the body of the `payoffSummary`
memo:

```
let months = 0;
if (debt.currentAmount <= 0) { months = 0; }
else if (debt.minPayment <= 0) { months = Infinity; }
else {
  const r = (debt.interestRate || 0) / 100 / 12;
  if (r === 0) { months = p / a; }
  else if (a <= p * r) { months = Infinity; }
  else { months = Math.log(a / (a - p * r)) / Math.log(1 + r); }
}
```

`⊤ : WithTop ℝ` models the JS `Infinity` value. -/
noncomputable def payoffMonths (currentAmount minPayment : ℚ) (interestRate : Option ℚ) : WithTop ℝ :=
  if currentAmount ≤ 0 then ((0 : ℝ) : WithTop ℝ)
  else if minPayment ≤ 0 then ⊤
  else if monthlyRate interestRate = 0 then
    (((currentAmount / minPayment : ℚ) : ℝ) : WithTop ℝ)
  else if minPayment ≤ currentAmount * monthlyRate interestRate then ⊤
  else
    ((Real.log ((minPayment : ℝ) / ((minPayment : ℝ) - (currentAmount : ℝ) * ((monthlyRate interestRate : ℚ) : ℝ))) /
        Real.log (1 + ((monthlyRate interestRate : ℚ) : ℝ)) : ℝ) : WithTop ℝ)

/-- Tagged payoff horizon, as the specification's `PayoffResult.horizon` data
model describes it: `Finite(months) | Unpayable`. -/
inductive Horizon where
  | Finite (months : ℝ)
  | Unpayable

/-- Transcribed from the specification's PayoffCalculator algorithm, for
comparison with the code-derived `payoffMonths`:
monthly rate `r = (annualInterestRate ?? 0) / 100 / 12`;
`currentAmount ≤ 0 → Finite(0)`; `minPayment ≤ 0 → Unpayable`;
`r == 0 → Finite(currentAmount / minPayment)`;
`minPayment ≤ currentAmount × r → Unpayable`;
otherwise `Finite(ln(minPayment / (minPayment − currentAmount×r)) / ln(1+r))`. -/
noncomputable def horizonSpec (currentAmount minPayment : ℚ) (annualInterestRate : Option ℚ) : Horizon :=
  if currentAmount ≤ 0 then .Finite 0
  else if minPayment ≤ 0 then .Unpayable
  else if monthlyRate annualInterestRate = 0 then
    .Finite ((currentAmount / minPayment : ℚ) : ℝ)
  else if minPayment ≤ currentAmount * monthlyRate annualInterestRate then .Unpayable
  else
    .Finite (Real.log ((minPayment : ℝ) / ((minPayment : ℝ) - (currentAmount : ℝ) * ((monthlyRate annualInterestRate : ℚ) : ℝ))) /
      Real.log (1 + ((monthlyRate annualInterestRate : ℚ) : ℝ)))

/-- Meaning of a tagged horizon as the number the code actually stores:
`Unpayable` is the floating-point `Infinity`. -/
def Horizon.toVal : Horizon → WithTop ℝ
  | .Finite m => (m : WithTop ℝ)
  | .Unpayable => ⊤

/-- One row of the payoff summary before ranking: the debt together with its
computed `payoffMonths` field, from
`data.debts.map(debt => ({...debt, payoffMonths: months}))`. -/
noncomputable def payoffEntries (debts : List Debt) : List (Debt × WithTop ℝ) :=
  debts.map (fun d => (d, payoffMonths d.currentAmount d.minPayment d.interestRate))

/-- The sort key order used by `.sort((a, b) => a.payoffMonths - b.payoffMonths)`.
For finite months the numeric difference has the sign of the comparison; a
finite value minus `Infinity` is negative; `Infinity` minus a finite value is
positive; `Infinity - Infinity` is `NaN`, which `Array.prototype.sort` treats
as `+0` (equal). This is exactly the order `x.2.2 ≤ y.2.2` on `WithTop ℝ`.
The order is classically decidable only, since the months are real numbers. -/
noncomputable instance payoffKeyDecidable :
    DecidableRel (fun (x y : ℕ × Debt × WithTop ℝ) => x.2.2 ≤ y.2.2) :=
  fun _ _ => Classical.dec _

instance payoffKeyTotal :
    IsTotal (ℕ × Debt × WithTop ℝ) (fun x y => x.2.2 ≤ y.2.2) :=
  ⟨fun a b => le_total a.2.2 b.2.2⟩

instance payoffKeyTrans :
    IsTrans (ℕ × Debt × WithTop ℝ) (fun x y => x.2.2 ≤ y.2.2) :=
  ⟨fun _ _ _ hab hbc => le_trans hab hbc⟩

/-- The ranked payoff rows, each tagged with its original position in
`data.debts`. The position tag models the identity of the distinct JS row
objects; `Array.prototype.sort` is a stable sort (ES2019), which on a list of
distinct tagged rows is insertion sort by the key order above. -/
noncomputable def rankedEntries (debts : List Debt) : List (ℕ × Debt × WithTop ℝ) :=
  List.insertionSort (fun x y => x.2.2 ≤ y.2.2) (payoffEntries debts).enum

/-- The payoff summary delivered to the presentation layer: the ranked rows
without the position tag, from the end of the `payoffSummary` memo. -/
noncomputable def payoffSummary (debts : List Debt) : List (Debt × WithTop ℝ) :=
  (rankedEntries debts).map Prod.snd

/-- Kind of a reminder item: `type: 'info' | 'warning'`. -/
inductive NoteType where
  | info
  | warning
deriving DecidableEq

/-- Identity of a reminder item, modelling the template-string id scheme of
`calculateNotifications`. The four constructors correspond to the injective
string templates `'monthly-checkin'`, `` `debt-due-${debt.id}` ``,
`` `debt-upcoming-${debt.id}` `` and `` `exp-${exp.id}-${today.getTime()}` ``;
note that the last one carries the evaluation timestamp in milliseconds. -/
inductive NoteId where
  | monthlyCheckin
  | debtDue (debtId : String)
  | debtUpcoming (debtId : String)
  | expense (expenseId : String) (timeMillis : ℤ)
deriving DecidableEq

/-- A reminder item `{id, type, title, message}` (`NotificationItem`). -/
structure Note where
  id : NoteId
  type : NoteType
  title : String
  message : String
deriving DecidableEq

/-- The fixed start-of-month check-in reminder pushed when `currentDay <= 3`. -/
def checkinNote : Note :=
  ⟨.monthlyCheckin, .info, "Inicio de Mes",
    "Es momento de registrar tus ingresos del mes para actualizar el presupuesto."⟩

/-- The warning reminder pushed when a debt's due day is today. The per-debt
block of `calculateNotifications` is:

```
if (debt.currentAmount > 0 && debt.dueDay) {
  if (currentDay === dueDay) { push warning debt-due }
  else if (dueDay > currentDay && dueDay <= currentDay + 3) { push info debt-upcoming }
}
```

The JS truthiness test `debt.dueDay` requires the field to be present and
nonzero. -/
def debtDueNote (debt : Debt) : Note :=
  ⟨.debtDue debt.id, .warning, "¡Vencimiento Hoy!",
    "El pago mínimo de " ++ debt.name ++ " vence hoy. Evita recargos."⟩

/-- The info reminder pushed when a debt's due day falls within the next three
days: `daysLeft = dueDay - currentDay`. -/
def debtUpcomingNote (debt : Debt) (daysLeft : ℕ) : Note :=
  ⟨.debtUpcoming debt.id, .info, "Pago Próximo",
    "El pago de " ++ debt.name ++ " es en " ++ toString daysLeft ++ " días."⟩

/-- Reminders contributed by one debt (see the block quoted above
`debtDueNote`). -/
def debtNotes (debt : Debt) (currentDay : ℕ) : List Note :=
  if 0 < debt.currentAmount then
    match debt.dueDay with
    | some dueDay =>
      if dueDay = 0 then []
      else if currentDay = dueDay then [debtDueNote debt]
      else if currentDay < dueDay ∧ dueDay ≤ currentDay + 3 then
        [debtUpcomingNote debt (dueDay - currentDay)]
      else []
    | none => []
  else []

/-- Reminders contributed by one expense, from the `data.expenses.forEach`
block. The three frequency tests are sequential `if`s setting `shouldNotify`
and `msg`; since an expense has a single frequency they are mutually
exclusive, and the last assignment to `msg` wins, giving the precedence
bi-weekly, then weekly, then monthly. Monthly and bi-weekly use the truthy
test `exp.dueDay` (present and nonzero); weekly uses
`exp.dueDay !== undefined`, so a weekly due day of `0` (Sunday) fires. The
pushed id is `` `exp-${exp.id}-${today.getTime()}` ``, embedding the
evaluation timestamp. -/
def expenseNotes (exp : Expense) (currentDay currentDayOfWeek : ℕ) (timeMillis : ℤ) : List Note :=
  match exp.dueDay with
  | none => []
  | some dueDay =>
    if ((exp.frequency = none ∨ exp.frequency = some .monthly) ∧ dueDay ≠ 0 ∧ currentDay = dueDay) ∨
        (exp.frequency = some .weekly ∧ currentDayOfWeek = dueDay) ∨
        (exp.frequency = some .biweekly ∧ dueDay ≠ 0 ∧ (currentDay = dueDay ∨ currentDay = dueDay + 15)) then
      [⟨.expense exp.id timeMillis, .info, "Gasto Fijo",
        if exp.frequency = some .biweekly then
          "Quincenal: Hoy corresponde el gasto de " ++ exp.name ++ "."
        else if exp.frequency = some .weekly then
          "Semanal: Hoy toca el gasto de " ++ exp.name ++ "."
        else
          "Hoy corresponde pagar/apartar: " ++ exp.name ++ "."⟩]
    else []

/-- The reminder computation `calculateNotifications`, as a function of the
snapshot and of the three date components the code reads from `new Date()`:
`getDate()` (day of month), `getDay()` (day of week, 0 = Sunday) and
`getTime()` (epoch milliseconds). The notes are pushed in order: the monthly
check-in, then one pass over the debts, then one pass over the expenses. -/
def calculateNotifications (s : FinState) (currentDay currentDayOfWeek : ℕ)
    (timeMillis : ℤ) : List Note :=
  (if currentDay ≤ 3 then [checkinNote] else []) ++
    s.debts.flatMap (fun debt => debtNotes debt currentDay) ++
    s.expenses.flatMap (fun exp => expenseNotes exp currentDay currentDayOfWeek timeMillis)

/-- An external system alert, carrying the `title` and `body` passed to the
`Notification` constructor. -/
structure SysAlert where
  title : String
  body : String
deriving DecidableEq

/-- The dispatcher guard, from:

```
const sendSystemNotification = (title, body) => {
  if (pushEnabled && 'Notification' in window && document.visibilityState === 'hidden') {
    new Notification(title, { body, icon: ... });
  }
};
```

The result is the list of alerts actually dispatched: one when permission is
granted (`pushEnabled`), the platform facility exists (`notifAvailable`), and
the page is not visible (`pageHidden`); none otherwise. -/
def sendSystemNotification (pushEnabled notifAvailable pageHidden : Bool)
    (title body : String) : List SysAlert :=
  if pushEnabled && notifAvailable && pageHidden then [⟨title, body⟩] else []

/-- Value-level view of the `setData` updater of `handleMakePayment`: debts
are mapped with the clamped subtraction, a payment record is appended, and the
history is either updated at its last entry (same-month case) or extended.
(The aliasing behaviour of the same-month case is modelled separately by
`makePaymentHeap` below.) -/
def makePaymentState (s : FinState) (debtId : String) (amount : ℚ) (date : String)
    (user : String) (pid : String) : FinState :=
  let updatedDebts := s.debts.map (fun d =>
    if d.id = debtId then { d with currentAmount := max 0 (d.currentAmount - amount) } else d)
  let newTotalDebt := updatedDebts.foldl (fun acc d => acc + d.currentAmount) 0
  let newHistory :=
    match s.history.getLast? with
    | some lastHist =>
      if lastHist.date = date.take 7 then
        s.history.dropLast ++ [{ lastHist with totalDebt := newTotalDebt }]
      else s.history ++ [⟨date, newTotalDebt⟩]
    | none => s.history ++ [⟨date, newTotalDebt⟩]
  { s with
    debts := updatedDebts
    payments := s.payments ++ [⟨pid, debtId, amount, date, user⟩]
    history := newHistory }

/-- The debt name looked up for the payment alert:
`data.debts.find(d => d.id === debtId)?.name || 'Deuda'` (JS `||`: an empty
name also falls back). -/
def paymentDebtName (s : FinState) (debtId : String) : String :=
  match s.debts.find? (fun d => d.id = debtId) with
  | some d => if d.name = "" then "Deuda" else d.name
  | none => "Deuda"

/-- The `handleMakePayment` action: the state mutation together with the
alerts dispatched by its trailing `sendSystemNotification` call. `pid` stands
for the generated payment id and `date` for today's ISO date string. -/
def handleMakePayment (pushEnabled notifAvailable pageHidden : Bool) (user : String)
    (s : FinState) (debtId : String) (amount : ℚ) (date : String) (pid : String) :
    FinState × List SysAlert :=
  (makePaymentState s debtId amount date user pid,
    sendSystemNotification pushEnabled notifAvailable pageHidden "Pago Registrado"
      (user ++ " pagó $" ++ toString amount ++ " a " ++ paymentDebtName s debtId))

/-- The `handleAddDebt` action: append the new debt (with its generated id)
and dispatch the creation alert. -/
def handleAddDebt (pushEnabled notifAvailable pageHidden : Bool) (user : String)
    (s : FinState) (debt : Debt) (newId : String) : FinState × List SysAlert :=
  ({ s with debts := s.debts ++ [{ debt with id := newId }] },
    sendSystemNotification pushEnabled notifAvailable pageHidden "Nueva Deuda"
      (user ++ " agregó la deuda \"" ++ debt.name ++ "\""))

/-- Heap-level view of the history handling in `handleMakePayment`. The JS
history entries are mutable objects; `store` is the heap of entry objects and
`histRefs` the array of references held by the snapshot. The code does

```
const newHistory = [...prev.history];        // copies the array of references
const lastHist = newHistory[newHistory.length - 1];
if (lastHist && lastHist.date === date.substring(0, 7)) {
    lastHist.totalDebt = newTotalDebt;       // writes the shared object
} else {
    newHistory.push({ date, totalDebt: newTotalDebt });
}
```

so in the same-month case it writes through a reference shared with the
previous snapshot. The result is the heap after the action and the new
snapshot's reference array. -/
def makePaymentHeap (store : List HistEntry) (histRefs : List ℕ) (debts : List Debt)
    (debtId : String) (amount : ℚ) (date : String) : List HistEntry × List ℕ :=
  let updatedDebts := debts.map (fun d =>
    if d.id = debtId then { d with currentAmount := max 0 (d.currentAmount - amount) } else d)
  let newTotalDebt := updatedDebts.foldl (fun acc d => acc + d.currentAmount) 0
  match histRefs.getLast? with
  | some lastRef =>
    match store[lastRef]? with
    | some lastHist =>
      if lastHist.date = date.take 7 then
        (store.set lastRef { lastHist with totalDebt := newTotalDebt }, histRefs)
      else (store ++ [⟨date, newTotalDebt⟩], histRefs ++ [store.length])
    | none => (store ++ [⟨date, newTotalDebt⟩], histRefs ++ [store.length])
  | none => (store ++ [⟨date, newTotalDebt⟩], histRefs ++ [store.length])

/-- Relative original-position order of two ranked rows carrying the infinite
horizon: if both are unpayable, the earlier row keeps the smaller original
position. -/
def TopIdxLt (x y : ℕ × Debt × WithTop ℝ) : Prop :=
  x.2.2 = ⊤ → y.2.2 = ⊤ → x.1 < y.1

/-- Concrete debt used by the C4 witness: the spec's dueDay 15 example. -/
def debt4 : Debt := ⟨"1", "BBVA", 50000, 100, 2500, "#1e40af", some 15, some 45⟩

/-- Concrete snapshot used by the C4 witness. -/
def s4 : FinState := ⟨[debt4], [], [], [], []⟩

/-- Concrete expense used by the C3 evidence: a monthly expense due on the
10th. -/
def expC3 : Expense := ⟨"1", "Luz", 500, "Services", some .monthly, some 10⟩

/-- Concrete snapshot used by the C3 evidence. -/
def sC3 : FinState := ⟨[], [expC3], [], [], []⟩

/-- Concrete expense used by the C5 witness. -/
def expC5 : Expense := ⟨"1", "Luz", 500, "Services", some .monthly, some 10⟩

/-- Concrete snapshot used by the C5 witness. -/
def sC5 : FinState := ⟨[], [expC5], [], [], []⟩

/-- Concrete debt used by the C10 witness. -/
def debt10 : Debt := ⟨"1", "BBVA", 50000, 100, 2500, "#1e40af", some 15, some 45⟩

/-- Concrete snapshot used by the C10 witness. -/
def s10 : FinState := ⟨[debt10], [], [], [], []⟩

/-- Concrete debt used by the C7 witness. -/
def debt7 : Debt := ⟨"0", "Nueva", 0, 0, 0, "#000000", none, none⟩

/-- Concrete snapshot used by the C7 witness. -/
def s7 : FinState := ⟨[], [], [], [], []⟩

/-- Concrete debt used by the C9 witness: balance 50, payment 100, so the
clamp to zero is exercised. -/
def debt9 : Debt := ⟨"1", "Tarjeta", 100, 50, 10, "#ffffff", none, none⟩

/-- Concrete snapshot used by the C9 witness. -/
def s9 : FinState := ⟨[debt9], [], [], [], []⟩

/-- Concrete history heap used by the C8 evidence. -/
def histStore8 : List HistEntry := [⟨"2026-10", 100⟩]

/-- Concrete debts used by the C8 evidence. -/
def debts8 : List Debt := [⟨"1", "BBVA", 50000, 50, 2500, "#1e40af", some 15, some 45⟩]

/-- C1: the payoff-horizon computation follows exactly the spec's case analysis
on (currentAmount, minPayment, optional annualInterestRate) with monthly rate
r = (annualInterestRate ?? 0)/100/12, where the code's `Infinity` plays the
role of `Unpayable`; and for any positive currentAmount with
minPayment ≤ currentAmount × (rate/100/12) the result is always `Unpayable`.
The result is a pure function of the three inputs. -/
theorem C1_payoff_case_analysis :
    (∀ (currentAmount minPayment : ℚ) (interestRate : Option ℚ),
      payoffMonths currentAmount minPayment interestRate
        = (horizonSpec currentAmount minPayment interestRate).toVal) ∧
    (∀ (currentAmount minPayment rate : ℚ), 0 < currentAmount →
      minPayment ≤ currentAmount * (rate / 100 / 12) →
      payoffMonths currentAmount minPayment (some rate) = ⊤) := by
  constructor
  · intro p a ir
    unfold payoffMonths horizonSpec
    split_ifs <;> rfl
  · intro p a rate hp hle
    have hrate : monthlyRate (some rate) = rate / 100 / 12 := by
      simp [monthlyRate]
    unfold payoffMonths
    rw [if_neg (not_le.mpr hp)]
    by_cases ha : a ≤ 0
    · rw [if_pos ha]
    · rw [if_neg ha]
      have hle' : a ≤ p * monthlyRate (some rate) := by rw [hrate]; exact hle
      have hpr : 0 < p * monthlyRate (some rate) :=
        lt_of_lt_of_le (not_le.mp ha) hle'
      have hr : 0 < monthlyRate (some rate) := by
        by_contra hr0
        exact absurd hpr
          (not_lt.mpr (mul_nonpos_of_nonneg_of_nonpos hp.le (not_lt.mp hr0)))
      rw [if_neg hr.ne', if_pos hle']

/-- Witness for C1 at the spec's own scenario: currentAmount 10000,
minPayment 50, annual rate 60 percent. -/
theorem C1_payoff_case_analysis_witness :
    0 < (10000 : ℚ) ∧ (50 : ℚ) ≤ 10000 * ((60 : ℚ) / 100 / 12) ∧
      payoffMonths 10000 50 (some 60) = ⊤ :=
  ⟨by norm_num, by norm_num,
    C1_payoff_case_analysis.2 10000 50 60 (by norm_num) (by norm_num)⟩

/-- C6 counterexample: for the debt with currentAmount 1, minPayment 0 and no
interest rate, the computed horizon is the bare floating-point infinity (the
`⊤` of `WithTop ℝ` that models the JS `Infinity` the code assigns), not a
tagged `Finite`/`Unpayable` value. -/
theorem C6_bare_infinity_counterexample : payoffMonths 1 0 none = ⊤ := by
  unfold payoffMonths
  rw [if_neg (by norm_num), if_pos le_rfl]

/-- C6 amended: the horizon is stored as a bare extended number, equal to the
floating-point infinity exactly when the debt is unpayable (positive balance
with a non-positive payment, or a nonzero monthly rate whose interest the
payment does not exceed); for validated non-negative inputs every other
result is a non-negative finite real. -/
theorem C6_horizon_infinity_characterization :
    ∀ (currentAmount minPayment : ℚ) (interestRate : Option ℚ),
      (payoffMonths currentAmount minPayment interestRate = ⊤ ↔
        0 < currentAmount ∧ (minPayment ≤ 0 ∨
          (monthlyRate interestRate ≠ 0 ∧
            minPayment ≤ currentAmount * monthlyRate interestRate))) ∧
      (0 ≤ currentAmount → 0 ≤ minPayment → 0 ≤ interestRate.getD 0 →
        payoffMonths currentAmount minPayment interestRate ≠ ⊤ →
        ∃ m : ℝ, 0 ≤ m ∧
          payoffMonths currentAmount minPayment interestRate = (m : WithTop ℝ)) := by
  intro p a ir
  constructor
  · unfold payoffMonths
    split_ifs with h1 h2 h3 h4
    · exact iff_of_false WithTop.coe_ne_top (fun h => absurd h.1 (not_lt.mpr h1))
    · exact iff_of_true rfl ⟨not_le.mp h1, Or.inl h2⟩
    · refine iff_of_false WithTop.coe_ne_top ?_
      rintro ⟨-, h | ⟨hr, -⟩⟩
      · exact h2 h
      · exact hr h3
    · exact iff_of_true rfl ⟨not_le.mp h1, Or.inr ⟨h3, h4⟩⟩
    · refine iff_of_false WithTop.coe_ne_top ?_
      rintro ⟨-, h | ⟨-, hle⟩⟩
      · exact h2 h
      · exact h4 hle
  · intro hp0 ha0 hir hne
    have hr0 : 0 ≤ monthlyRate ir := by
      unfold monthlyRate
      positivity
    unfold payoffMonths at hne ⊢
    split_ifs at hne ⊢ with h1 h2 h3 h4
    · exact ⟨0, le_refl 0, rfl⟩
    · exact absurd rfl hne
    · have hq : (0 : ℚ) ≤ p / a := div_nonneg hp0 (not_le.mp h2).le
      exact ⟨((p / a : ℚ) : ℝ), by exact_mod_cast hq, rfl⟩
    · exact absurd rfl hne
    · have hrpos : 0 < monthlyRate ir := lt_of_le_of_ne hr0 (Ne.symm h3)
      have hA : (0 : ℝ) < (a : ℝ) := by exact_mod_cast not_le.mp h2
      have hR : (0 : ℝ) < ((monthlyRate ir : ℚ) : ℝ) := by exact_mod_cast hrpos
      have hP : (0 : ℝ) ≤ (p : ℝ) := by exact_mod_cast hp0
      have hlt : (p : ℝ) * ((monthlyRate ir : ℚ) : ℝ) < (a : ℝ) := by
        exact_mod_cast not_le.mp h4
      have hden : (0 : ℝ) < (a : ℝ) - (p : ℝ) * ((monthlyRate ir : ℚ) : ℝ) :=
        sub_pos.mpr hlt
      have hquot : 1 ≤ (a : ℝ) / ((a : ℝ) - (p : ℝ) * ((monthlyRate ir : ℚ) : ℝ)) := by
        rw [le_div_iff₀ hden, one_mul]
        exact sub_le_self _ (mul_nonneg hP hR.le)
      refine ⟨_, div_nonneg (Real.log_nonneg hquot) ?_, rfl⟩
      exact (Real.log_pos (by linarith)).le

/-- Witness for C6 at currentAmount 10, minPayment 5, no interest rate: the
horizon is finite and non-negative. -/
theorem C6_horizon_infinity_characterization_witness :
    0 ≤ (10 : ℚ) ∧ 0 ≤ (5 : ℚ) ∧ 0 ≤ (Option.getD (none : Option ℚ) 0) ∧
      payoffMonths 10 5 none ≠ ⊤ ∧
      ∃ m : ℝ, 0 ≤ m ∧ payoffMonths 10 5 none = (m : WithTop ℝ) := by
  have hne : payoffMonths 10 5 none ≠ ⊤ := by
    unfold payoffMonths monthlyRate
    norm_num
  exact ⟨by norm_num, by norm_num, by norm_num,
    hne, (C6_horizon_infinity_characterization 10 5 none).2 (by norm_num) (by norm_num)
      (by norm_num) hne⟩

lemma pairwise_topIdxLt_orderedInsert (a : ℕ × Debt × WithTop ℝ) :
    ∀ l : List (ℕ × Debt × WithTop ℝ), l.Pairwise TopIdxLt →
      (∀ y ∈ l, a.2.2 = ⊤ → y.2.2 = ⊤ → a.1 < y.1) →
      (List.orderedInsert (fun x y => x.2.2 ≤ y.2.2) a l).Pairwise TopIdxLt
  | [], _, _ => List.pairwise_singleton _ _
  | b :: l, hl, ha => by
    unfold List.orderedInsert
    obtain ⟨hb, hl'⟩ := List.pairwise_cons.mp hl
    split_ifs with hab
    · exact List.pairwise_cons.mpr ⟨fun z hz => ha z hz, hl⟩
    · refine List.pairwise_cons.mpr ⟨?_, ?_⟩
      · intro z hz
        rcases (List.mem_orderedInsert _).mp hz with hza | hzl
        · subst hza
          intro hbtop _
          exact absurd (hbtop ▸ le_top) hab
        · exact hb z hzl
      · exact pairwise_topIdxLt_orderedInsert a l hl'
          (fun y hy => ha y (List.mem_cons_of_mem b hy))

lemma pairwise_topIdxLt_insertionSort :
    ∀ l : List (ℕ × Debt × WithTop ℝ), l.Pairwise (fun x y => x.1 < y.1) →
      (List.insertionSort (fun x y => x.2.2 ≤ y.2.2) l).Pairwise TopIdxLt
  | [], _ => List.Pairwise.nil
  | a :: l, hl => by
    obtain ⟨hhead, htail⟩ := List.pairwise_cons.mp hl
    have hperm := List.perm_insertionSort (fun x y : ℕ × Debt × WithTop ℝ => x.2.2 ≤ y.2.2) l
    exact pairwise_topIdxLt_orderedInsert a _
      (pairwise_topIdxLt_insertionSort l htail)
      (fun y hy _ _ => hhead y (hperm.mem_iff.mp hy))

lemma enum_pairwise_fst_lt {α : Type} (l : List α) :
    l.enum.Pairwise (fun x y => x.1 < y.1) := by
  rw [List.pairwise_iff_getElem]
  intro i j hi hj hij
  rw [List.getElem_enum, List.getElem_enum]
  exact hij

/-- C2: the ranked payoff output is sorted ascending by horizon under the
total order in which a finite value precedes another iff it is smaller and
the infinite horizon (`Unpayable`) sorts after every finite one; it is a
permutation of the computed rows; no finite-horizon row follows an
infinite-horizon row; and ties among infinite-horizon rows keep their
original relative order (stability), stated on the position-tagged rows. -/
theorem C2_ranking_sorted_stable :
    ∀ debts : List Debt,
      (payoffSummary debts).Sorted (fun x y => x.2 ≤ y.2) ∧
      (payoffSummary debts).Perm (payoffEntries debts) ∧
      (payoffSummary debts).Pairwise (fun x y => x.2 = ⊤ → y.2 = ⊤) ∧
      (rankedEntries debts).Perm (payoffEntries debts).enum ∧
      (rankedEntries debts).Pairwise TopIdxLt := by
  intro debts
  have hsorted : (rankedEntries debts).Pairwise
      (fun x y : ℕ × Debt × WithTop ℝ => x.2.2 ≤ y.2.2) :=
    List.sorted_insertionSort _ _
  have hperm : (rankedEntries debts).Perm (payoffEntries debts).enum :=
    List.perm_insertionSort _ _
  refine ⟨?_, ?_, ?_, hperm, ?_⟩
  · exact List.Pairwise.map Prod.snd (fun a b h => h) hsorted
  · have := hperm.map Prod.snd
    rwa [List.enum_map_snd] at this
  · exact List.Pairwise.map Prod.snd
      (fun a b h hx => top_le_iff.mp (hx ▸ h)) hsorted
  · exact pairwise_topIdxLt_insertionSort _ (enum_pairwise_fst_lt _)

lemma mem_calculateNotifications {s : FinState} {d w : ℕ} {t : ℤ} {n : Note} :
    n ∈ calculateNotifications s d w t ↔
      ((d ≤ 3 ∧ n = checkinNote) ∨
        (∃ debt ∈ s.debts, n ∈ debtNotes debt d) ∨
        (∃ exp ∈ s.expenses, n ∈ expenseNotes exp d w t)) := by
  unfold calculateNotifications
  by_cases h : d ≤ 3 <;>
    simp [h, List.mem_append, List.mem_flatMap]

lemma debtNotes_id {debt : Debt} {d : ℕ} {n : Note} (h : n ∈ debtNotes debt d) :
    (n.id = .debtDue debt.id ∧ n.type = .warning) ∨
      (n.id = .debtUpcoming debt.id ∧ n.type = .info) := by
  unfold debtNotes at h
  by_cases h1 : 0 < debt.currentAmount
  · rw [if_pos h1] at h
    cases hdd : debt.dueDay with
    | none => rw [hdd] at h; dsimp only at h; simp at h
    | some dd =>
      rw [hdd] at h
      dsimp only at h
      split_ifs at h with h2 h3 h4
      · simp at h
      · rw [List.mem_singleton] at h
        subst h
        exact Or.inl ⟨rfl, rfl⟩
      · rw [List.mem_singleton] at h
        subst h
        exact Or.inr ⟨rfl, rfl⟩
      · simp at h
  · rw [if_neg h1] at h
    simp at h

lemma debtNotes_active {debt : Debt} {dd : ℕ} (d : ℕ) (hamt : 0 < debt.currentAmount)
    (hdd : debt.dueDay = some dd) (hdd0 : dd ≠ 0) :
    debtNotes debt d =
      if d = dd then [debtDueNote debt]
      else if d < dd ∧ dd ≤ d + 3 then [debtUpcomingNote debt (dd - d)]
      else [] := by
  unfold debtNotes
  rw [if_pos hamt, hdd]
  dsimp only
  rw [if_neg hdd0]

lemma debtNotes_length_le (debt : Debt) (d : ℕ) : (debtNotes debt d).length ≤ 1 := by
  unfold debtNotes
  split_ifs with h1
  · cases debt.dueDay with
    | none => simp
    | some dd =>
      dsimp only
      split_ifs <;> simp
  · simp

lemma dueNote_mem_debtNotes_iff {debt : Debt} {dd : ℕ} (d : ℕ)
    (hamt : 0 < debt.currentAmount) (hdd : debt.dueDay = some dd) (hdd0 : dd ≠ 0) :
    debtDueNote debt ∈ debtNotes debt d ↔ d = dd := by
  rw [debtNotes_active d hamt hdd hdd0]
  split_ifs with h1 h2
  · exact iff_of_true (List.mem_singleton_self _) h1
  · refine iff_of_false ?_ h1
    intro h
    rw [List.mem_singleton] at h
    exact absurd (congrArg Note.type h) (by simp [debtDueNote, debtUpcomingNote])
  · exact iff_of_false (by simp) h1

lemma upcomingNote_mem_debtNotes_iff {debt : Debt} {dd : ℕ} (d : ℕ)
    (hamt : 0 < debt.currentAmount) (hdd : debt.dueDay = some dd) (hdd0 : dd ≠ 0) :
    debtUpcomingNote debt (dd - d) ∈ debtNotes debt d ↔ (d < dd ∧ dd ≤ d + 3) := by
  rw [debtNotes_active d hamt hdd hdd0]
  split_ifs with h1 h2
  · refine iff_of_false ?_ ?_
    · intro h
      rw [List.mem_singleton] at h
      exact absurd (congrArg Note.type h) (by simp [debtDueNote, debtUpcomingNote])
    · subst h1
      omega
  · exact iff_of_true (List.mem_singleton_self _) h2
  · exact iff_of_false (by simp) h2

lemma expenseNotes_id {exp : Expense} {d w : ℕ} {t : ℤ} {n : Note}
    (h : n ∈ expenseNotes exp d w t) :
    n.id = .expense exp.id t ∧ n.type = .info := by
  unfold expenseNotes at h
  cases hdd : exp.dueDay with
  | none => rw [hdd] at h; dsimp only at h; simp at h
  | some dd =>
    rw [hdd] at h
    dsimp only at h
    by_cases hc : ((exp.frequency = none ∨ exp.frequency = some .monthly) ∧ dd ≠ 0 ∧ d = dd) ∨
        (exp.frequency = some .weekly ∧ w = dd) ∨
        (exp.frequency = some .biweekly ∧ dd ≠ 0 ∧ (d = dd ∨ d = dd + 15))
    · rw [if_pos hc, List.mem_singleton] at h
      subst h
      exact ⟨rfl, rfl⟩
    · rw [if_neg hc] at h
      simp at h

lemma expenseNotes_cases {exp : Expense} {d w : ℕ} {t : ℤ} {n : Note}
    (h : n ∈ expenseNotes exp d w t) :
    ∃ dd, exp.dueDay = some dd ∧
      (((exp.frequency = none ∨ exp.frequency = some .monthly) ∧ dd ≠ 0 ∧ d = dd) ∨
        (exp.frequency = some .weekly ∧ w = dd) ∨
        (exp.frequency = some .biweekly ∧ dd ≠ 0 ∧ (d = dd ∨ d = dd + 15))) := by
  unfold expenseNotes at h
  cases hdd : exp.dueDay with
  | none => rw [hdd] at h; dsimp only at h; simp at h
  | some dd =>
    rw [hdd] at h
    dsimp only at h
    by_cases hc : ((exp.frequency = none ∨ exp.frequency = some .monthly) ∧ dd ≠ 0 ∧ d = dd) ∨
        (exp.frequency = some .weekly ∧ w = dd) ∨
        (exp.frequency = some .biweekly ∧ dd ≠ 0 ∧ (d = dd ∨ d = dd + 15))
    · exact ⟨dd, rfl, hc⟩
    · rw [if_neg hc] at h
      simp at h

lemma expenseNotes_fire {exp : Expense} {d w : ℕ} (t : ℤ) {dd : ℕ}
    (hdd : exp.dueDay = some dd)
    (hc : ((exp.frequency = none ∨ exp.frequency = some .monthly) ∧ dd ≠ 0 ∧ d = dd) ∨
      (exp.frequency = some .weekly ∧ w = dd) ∨
      (exp.frequency = some .biweekly ∧ dd ≠ 0 ∧ (d = dd ∨ d = dd + 15))) :
    ∃ n, n ∈ expenseNotes exp d w t ∧ n.id = .expense exp.id t ∧ n.type = .info := by
  unfold expenseNotes
  rw [hdd]
  dsimp only
  rw [if_pos hc]
  exact ⟨_, List.mem_singleton_self _, rfl, rfl⟩

lemma debt_keyed_mem {s : FinState} {d w : ℕ} {t : ℤ} {debt : Debt} {n : Note}
    (hnodup : (s.debts.map Debt.id).Nodup) (hmem : debt ∈ s.debts)
    (hn : n ∈ calculateNotifications s d w t)
    (hid : n.id = .debtDue debt.id ∨ n.id = .debtUpcoming debt.id) :
    n ∈ debtNotes debt d := by
  rcases mem_calculateNotifications.mp hn with ⟨-, rfl⟩ | ⟨debt', hd', hmemn⟩ | ⟨exp, -, hmemn⟩
  · rcases hid with h | h <;> simp [checkinNote] at h
  · have hsame : debt'.id = debt.id := by
      rcases debtNotes_id hmemn with ⟨hform, -⟩ | ⟨hform, -⟩ <;> rcases hid with h | h <;>
        first
          | exact NoteId.debtDue.inj (hform.symm.trans h)
          | exact NoteId.debtUpcoming.inj (hform.symm.trans h)
          | exact absurd (hform.symm.trans h) (by simp)
    have heq : debt' = debt := List.inj_on_of_nodup_map hnodup hd' hmem hsame
    rwa [heq] at hmemn
  · obtain ⟨hform, -⟩ := expenseNotes_id hmemn
    rcases hid with h | h <;> exact absurd (hform.symm.trans h) (by simp)

/-- C4: for a debt with positive balance and a set due day, the due-today
warning keyed to that debt is emitted exactly when the current day of month
equals the due day; the due-soon info item, carrying N = dueDay - day, is
emitted exactly when the due day lies in the next three days (no wrap across
a month boundary); and outside both windows no reminder keyed to that debt is
emitted at all. -/
theorem C4_debt_due_window :
    ∀ (s : FinState) (d w : ℕ) (t : ℤ) (debt : Debt) (dd : ℕ),
      debt ∈ s.debts → (s.debts.map Debt.id).Nodup →
      0 < debt.currentAmount → debt.dueDay = some dd → 1 ≤ dd →
      ((debtDueNote debt ∈ calculateNotifications s d w t ↔ d = dd) ∧
        (debtUpcomingNote debt (dd - d) ∈ calculateNotifications s d w t ↔
          (d < dd ∧ dd ≤ d + 3)) ∧
        (¬d = dd → ¬(d < dd ∧ dd ≤ d + 3) →
          ∀ n ∈ calculateNotifications s d w t,
            n.id ≠ .debtDue debt.id ∧ n.id ≠ .debtUpcoming debt.id)) := by
  intro s d w t debt dd hmem hnodup hamt hdd hdd1
  have hdd0 : dd ≠ 0 := Nat.one_le_iff_ne_zero.mp hdd1
  refine ⟨⟨?_, ?_⟩, ⟨?_, ?_⟩, ?_⟩
  · intro h
    exact (dueNote_mem_debtNotes_iff d hamt hdd hdd0).mp
      (debt_keyed_mem hnodup hmem h (Or.inl rfl))
  · intro h
    exact mem_calculateNotifications.mpr
      (Or.inr (Or.inl ⟨debt, hmem, (dueNote_mem_debtNotes_iff d hamt hdd hdd0).mpr h⟩))
  · intro h
    exact (upcomingNote_mem_debtNotes_iff d hamt hdd hdd0).mp
      (debt_keyed_mem hnodup hmem h (Or.inr rfl))
  · intro h
    exact mem_calculateNotifications.mpr
      (Or.inr (Or.inl ⟨debt, hmem, (upcomingNote_mem_debtNotes_iff d hamt hdd hdd0).mpr h⟩))
  · intro h1 h2 n hn
    constructor <;> intro hidEq
    · have h' := debt_keyed_mem hnodup hmem hn (Or.inl hidEq)
      rw [debtNotes_active d hamt hdd hdd0, if_neg h1, if_neg h2] at h'
      simp at h'
    · have h' := debt_keyed_mem hnodup hmem hn (Or.inr hidEq)
      rw [debtNotes_active d hamt hdd hdd0, if_neg h1, if_neg h2] at h'
      simp at h'

/-- Witness for C4 on day 12 with dueDay 15: the due-soon window fires with
N = 3 and the due-today warning does not. -/
theorem C4_debt_due_window_witness :
    debt4 ∈ s4.debts ∧ (s4.debts.map Debt.id).Nodup ∧ 0 < debt4.currentAmount ∧
      debt4.dueDay = some 15 ∧ (1 : ℕ) ≤ 15 ∧
      ((debtDueNote debt4 ∈ calculateNotifications s4 12 0 0 ↔ (12 : ℕ) = 15) ∧
        (debtUpcomingNote debt4 (15 - 12) ∈ calculateNotifications s4 12 0 0 ↔
          ((12 : ℕ) < 15 ∧ 15 ≤ 12 + 3)) ∧
        (¬(12 : ℕ) = 15 → ¬((12 : ℕ) < 15 ∧ 15 ≤ 12 + 3) →
          ∀ n ∈ calculateNotifications s4 12 0 0,
            n.id ≠ .debtDue debt4.id ∧ n.id ≠ .debtUpcoming debt4.id)) := by
  refine ⟨List.mem_singleton_self _, by simp [s4, debt4], by norm_num [debt4], rfl,
    by norm_num, ?_⟩
  exact C4_debt_due_window s4 12 0 0 debt4 15 (List.mem_singleton_self _)
    (by simp [s4, debt4]) (by norm_num [debt4]) rfl (by norm_num)

/-- C3 evidence: two evaluations on the same day of month (10) and day of
week (0), differing only in the epoch-millisecond timestamp (0 versus 1),
produce different reminder sets, because the expense reminder id embeds
`today.getTime()`. The claim that reminder ids never embed the evaluation
timestamp fails on the code. -/
theorem C3_expense_id_embeds_timestamp :
    calculateNotifications sC3 10 0 0 ≠ calculateNotifications sC3 10 0 1 := by
  decide

/-- C5: for a well-formed expense (day-of-month due days are at least 1) on a
real day of month, the info fixed-expense reminder for that expense is emitted
exactly when: the frequency is absent or Monthly and the due day equals the
day of month; the frequency is Weekly and the due day equals the day of week;
or the frequency is Bi-weekly and the due day equals the day of month or the
day of month minus 15. -/
theorem C5_expense_reminder_rule :
    ∀ (s : FinState) (d w : ℕ) (t : ℤ) (exp : Expense),
      exp ∈ s.expenses → (s.expenses.map Expense.id).Nodup → 1 ≤ d →
      (exp.frequency = some .biweekly → ∀ dd, exp.dueDay = some dd → 1 ≤ dd) →
      ((∃ n ∈ calculateNotifications s d w t, n.id = .expense exp.id t ∧ n.type = .info) ↔
        (((exp.frequency = none ∨ exp.frequency = some .monthly) ∧ exp.dueDay = some d) ∨
          (exp.frequency = some .weekly ∧ exp.dueDay = some w) ∨
          (exp.frequency = some .biweekly ∧
            (exp.dueDay = some d ∨ ∃ dd, exp.dueDay = some dd ∧ d = dd + 15)))) := by
  intro s d w t exp hmem hnodup hd1 hbiw
  constructor
  · rintro ⟨n, hn, hid, -⟩
    rcases mem_calculateNotifications.mp hn with ⟨-, rfl⟩ | ⟨debt', -, hmemn⟩ | ⟨exp', hmem', hmemn⟩
    · simp [checkinNote] at hid
    · rcases debtNotes_id hmemn with ⟨hform, -⟩ | ⟨hform, -⟩ <;>
        exact absurd (hform.symm.trans hid) (by simp)
    · obtain ⟨hform, -⟩ := expenseNotes_id hmemn
      have hsame : exp'.id = exp.id := (NoteId.expense.inj (hform.symm.trans hid)).1
      have heq : exp' = exp := List.inj_on_of_nodup_map hnodup hmem' hmem hsame
      subst heq
      obtain ⟨dd, hdd, hc⟩ := expenseNotes_cases hmemn
      rcases hc with ⟨hf, -, hdeq⟩ | ⟨hf, hweq⟩ | ⟨hf, -, hdor⟩
      · exact Or.inl ⟨hf, by rw [hdd, hdeq]⟩
      · exact Or.inr (Or.inl ⟨hf, by rw [hdd, hweq]⟩)
      · rcases hdor with h | h
        · exact Or.inr (Or.inr ⟨hf, Or.inl (by rw [hdd, h])⟩)
        · exact Or.inr (Or.inr ⟨hf, Or.inr ⟨dd, hdd, h⟩⟩)
  · intro hc
    have hex : ∃ dd, exp.dueDay = some dd ∧
        (((exp.frequency = none ∨ exp.frequency = some .monthly) ∧ dd ≠ 0 ∧ d = dd) ∨
          (exp.frequency = some .weekly ∧ w = dd) ∨
          (exp.frequency = some .biweekly ∧ dd ≠ 0 ∧ (d = dd ∨ d = dd + 15))) := by
      rcases hc with ⟨hf, hdd⟩ | ⟨hf, hdd⟩ | ⟨hf, hdd | ⟨dd, hdd, hdeq⟩⟩
      · exact ⟨d, hdd, Or.inl ⟨hf, Nat.one_le_iff_ne_zero.mp hd1, rfl⟩⟩
      · exact ⟨w, hdd, Or.inr (Or.inl ⟨hf, rfl⟩)⟩
      · exact ⟨d, hdd, Or.inr (Or.inr
          ⟨hf, Nat.one_le_iff_ne_zero.mp (hbiw hf d hdd), Or.inl rfl⟩)⟩
      · exact ⟨dd, hdd, Or.inr (Or.inr
          ⟨hf, Nat.one_le_iff_ne_zero.mp (hbiw hf dd hdd), Or.inr hdeq⟩)⟩
    obtain ⟨dd, hdd, hcc⟩ := hex
    obtain ⟨n, hmemn, hid, htype⟩ := expenseNotes_fire t hdd hcc
    exact ⟨n, mem_calculateNotifications.mpr (Or.inr (Or.inr ⟨exp, hmem, hmemn⟩)), hid, htype⟩

/-- Witness for C5: the monthly expense due on the 10th, evaluated on day 10. -/
theorem C5_expense_reminder_rule_witness :
    expC5 ∈ sC5.expenses ∧ (sC5.expenses.map Expense.id).Nodup ∧ (1 : ℕ) ≤ 10 ∧
      (expC5.frequency = some .biweekly → ∀ dd, expC5.dueDay = some dd → 1 ≤ dd) ∧
      ((∃ n ∈ calculateNotifications sC5 10 1 0, n.id = .expense expC5.id 0 ∧ n.type = .info) ↔
        (((expC5.frequency = none ∨ expC5.frequency = some .monthly) ∧ expC5.dueDay = some 10) ∨
          (expC5.frequency = some .weekly ∧ expC5.dueDay = some 1) ∨
          (expC5.frequency = some .biweekly ∧
            (expC5.dueDay = some 10 ∨ ∃ dd, expC5.dueDay = some dd ∧ 10 = dd + 15)))) := by
  refine ⟨List.mem_singleton_self _, by simp [sC5, expC5], by norm_num,
    by intro h; simp [expC5] at h, ?_⟩
  exact C5_expense_reminder_rule sC5 10 1 0 expC5 (List.mem_singleton_self _)
    (by simp [sC5, expC5]) (by norm_num) (by intro h; simp [expC5] at h)

lemma countP_debtKey_flatMap (d : ℕ) (i : String) :
    ∀ debts : List Debt, (debts.map Debt.id).Nodup →
      (debts.flatMap (fun debt => debtNotes debt d)).countP
        (fun n => n.id == NoteId.debtDue i || n.id == NoteId.debtUpcoming i) ≤ 1
  | [], _ => by simp
  | debt :: rest, hnodup => by
    have hnodup' := hnodup
    rw [List.map_cons, List.nodup_cons] at hnodup'
    obtain ⟨hnotin, hnr⟩ := hnodup'
    rw [List.flatMap_cons, List.countP_append]
    by_cases hid : debt.id = i
    · have hrest : (rest.flatMap (fun debt => debtNotes debt d)).countP
          (fun n => n.id == NoteId.debtDue i || n.id == NoteId.debtUpcoming i) = 0 := by
        rw [List.countP_eq_zero]
        intro n hn
        obtain ⟨debt', hd', hmemn⟩ := List.mem_flatMap.mp hn
        have hne : debt'.id ≠ i := by
          intro he
          apply hnotin
          rw [hid, ← he]
          exact List.mem_map_of_mem Debt.id hd'
        rcases debtNotes_id hmemn with ⟨hform, -⟩ | ⟨hform, -⟩ <;> simp [hform, hne]
      have hhead := le_trans (List.countP_le_length
        (fun n => n.id == NoteId.debtDue i || n.id == NoteId.debtUpcoming i))
        (debtNotes_length_le debt d)
      omega
    · have hhead : (debtNotes debt d).countP
          (fun n => n.id == NoteId.debtDue i || n.id == NoteId.debtUpcoming i) = 0 := by
        rw [List.countP_eq_zero]
        intro n hn
        rcases debtNotes_id hn with ⟨hform, -⟩ | ⟨hform, -⟩ <;> simp [hform, hid]
      rw [hhead]
      simpa using countP_debtKey_flatMap d i rest hnr

/-- C10: in any single invocation of the reminder computation, at most one
reminder keyed to a given debt id is emitted: the due-today and due-soon
branches are an if/else-if pair, so a debt never contributes both. Stated as:
the count of items whose id is `debt-due-i` or `debt-upcoming-i` is at most
one, for any id `i`, provided debt ids are distinct. -/
theorem C10_at_most_one_debt_reminder :
    ∀ (s : FinState) (d w : ℕ) (t : ℤ) (i : String),
      (s.debts.map Debt.id).Nodup →
      (calculateNotifications s d w t).countP
        (fun n => n.id == NoteId.debtDue i || n.id == NoteId.debtUpcoming i) ≤ 1 := by
  intro s d w t i hnodup
  unfold calculateNotifications
  rw [List.countP_append, List.countP_append]
  have h1 : (if d ≤ 3 then [checkinNote] else []).countP
      (fun n => n.id == NoteId.debtDue i || n.id == NoteId.debtUpcoming i) = 0 := by
    split_ifs <;> simp [checkinNote]
  have h3 : (s.expenses.flatMap (fun exp => expenseNotes exp d w t)).countP
      (fun n => n.id == NoteId.debtDue i || n.id == NoteId.debtUpcoming i) = 0 := by
    rw [List.countP_eq_zero]
    intro n hn
    obtain ⟨exp, -, hmemn⟩ := List.mem_flatMap.mp hn
    obtain ⟨hform, -⟩ := expenseNotes_id hmemn
    simp [hform]
  have h2 := countP_debtKey_flatMap d i s.debts hnodup
  omega

/-- Witness for C10 on the debt's own due day. -/
theorem C10_at_most_one_debt_reminder_witness :
    (s10.debts.map Debt.id).Nodup ∧
      (calculateNotifications s10 15 0 0).countP
        (fun n => n.id == NoteId.debtDue "1" || n.id == NoteId.debtUpcoming "1") ≤ 1 :=
  ⟨by simp [s10, debt10],
    C10_at_most_one_debt_reminder s10 15 0 0 "1" (by simp [s10, debt10])⟩

/-- C7: when permission is granted and the page is hidden, each triggering
action (payment recorded, debt created) dispatches exactly one external alert;
when permission is not granted or the page is visible, no alert is dispatched;
and in every case the state produced by the action does not depend on the
notification environment at all, so a suppressed dispatch never blocks or
rolls back the mutation. The hypothesis records the app invariant that
`pushEnabled` is only set when the platform facility exists. -/
theorem C7_dispatch_guard :
    ∀ (pe na ph pe2 na2 ph2 : Bool) (user : String) (s : FinState)
      (debtId : String) (amount : ℚ) (date pid : String) (debt : Debt) (newId : String),
      (pe = true → na = true) →
      (((pe = true ∧ ph = true) →
          (handleMakePayment pe na ph user s debtId amount date pid).2.length = 1 ∧
          (handleAddDebt pe na ph user s debt newId).2.length = 1) ∧
        ((pe = false ∨ ph = false) →
          (handleMakePayment pe na ph user s debtId amount date pid).2 = [] ∧
          (handleAddDebt pe na ph user s debt newId).2 = []) ∧
        ((handleMakePayment pe na ph user s debtId amount date pid).1 =
            (handleMakePayment pe2 na2 ph2 user s debtId amount date pid).1 ∧
          (handleAddDebt pe na ph user s debt newId).1 =
            (handleAddDebt pe2 na2 ph2 user s debt newId).1)) := by
  intro pe na ph pe2 na2 ph2 user s debtId amount date pid debt newId hgrant
  refine ⟨?_, ?_, rfl, rfl⟩
  · rintro ⟨hpe, hph⟩
    have hna := hgrant hpe
    simp [handleMakePayment, handleAddDebt, sendSystemNotification, hpe, hna, hph]
  · rintro (hpe | hph)
    · simp [handleMakePayment, handleAddDebt, sendSystemNotification, hpe]
    · simp [handleMakePayment, handleAddDebt, sendSystemNotification, hph]

/-- Witness for C7: granted-and-hidden versus denied-and-visible environments
around the same payment and debt creation. -/
theorem C7_dispatch_guard_witness :
    ((true : Bool) = true → (true : Bool) = true) ∧
      ((((true : Bool) = true ∧ (true : Bool) = true) →
          (handleMakePayment true true true "Edna" s7 "1" 100 "2026-10-11" "p1").2.length = 1 ∧
          (handleAddDebt true true true "Edna" s7 debt7 "id9").2.length = 1) ∧
        (((true : Bool) = false ∨ (true : Bool) = false) →
          (handleMakePayment true true true "Edna" s7 "1" 100 "2026-10-11" "p1").2 = [] ∧
          (handleAddDebt true true true "Edna" s7 debt7 "id9").2 = []) ∧
        ((handleMakePayment true true true "Edna" s7 "1" 100 "2026-10-11" "p1").1 =
            (handleMakePayment false false false "Edna" s7 "1" 100 "2026-10-11" "p1").1 ∧
          (handleAddDebt true true true "Edna" s7 debt7 "id9").1 =
            (handleAddDebt false false false "Edna" s7 debt7 "id9").1)) :=
  ⟨fun h => h,
    C7_dispatch_guard true true true false false false "Edna" s7 "1" 100 "2026-10-11" "p1"
      debt7 "id9" (fun h => h)⟩

/-- C9: recording a payment maps each debt in place in the list; the targeted
debt's new balance is exactly `max 0 (currentAmount - amount)` (clamped at
zero, never negative), other debts are untouched, and non-negativity of
balances is preserved. -/
theorem C9_payment_clamps_balance :
    ∀ (s : FinState) (debtId : String) (amount : ℚ) (date user pid : String)
      (i : ℕ) (d : Debt),
      s.debts[i]? = some d →
      ∃ d', (makePaymentState s debtId amount date user pid).debts[i]? = some d' ∧
        d'.id = d.id ∧
        (d.id = debtId → d'.currentAmount = max 0 (d.currentAmount - amount)) ∧
        (d.id ≠ debtId → d' = d) ∧
        (0 ≤ d.currentAmount → 0 ≤ d'.currentAmount) := by
  intro s debtId amount date user pid i d hd
  have hdebts : (makePaymentState s debtId amount date user pid).debts =
      s.debts.map (fun d =>
        if d.id = debtId then { d with currentAmount := max 0 (d.currentAmount - amount) }
        else d) := rfl
  refine ⟨if d.id = debtId then { d with currentAmount := max 0 (d.currentAmount - amount) }
    else d, ?_, ?_, ?_, ?_, ?_⟩
  · rw [hdebts, List.getElem?_map, hd]
    rfl
  · split_ifs <;> rfl
  · intro h
    rw [if_pos h]
  · intro h
    rw [if_neg h]
  · intro h0
    split_ifs
    · exact le_max_left 0 _
    · exact h0

/-- Witness for C9 with a payment exceeding the balance. -/
theorem C9_payment_clamps_balance_witness :
    s9.debts[0]? = some debt9 ∧
      ∃ d', (makePaymentState s9 "1" 100 "2026-10-11" "Edna" "p1").debts[0]? = some d' ∧
        d'.id = debt9.id ∧
        (debt9.id = "1" → d'.currentAmount = max 0 (debt9.currentAmount - 100)) ∧
        (debt9.id ≠ "1" → d' = debt9) ∧
        (0 ≤ debt9.currentAmount → 0 ≤ d'.currentAmount) :=
  ⟨rfl, C9_payment_clamps_balance s9 "1" 100 "2026-10-11" "Edna" "p1" 0 debt9 rfl⟩

/-- C8 evidence: a payment recorded in the month of the last history entry
writes through the history-entry object shared with the previous snapshot.
Before the action the shared cell reads totalDebt 100; afterwards the same
cell (still referenced by the old snapshot's `histRefs = [0]`, which the new
snapshot reuses unchanged) reads totalDebt 30. The previous snapshot's
history entry is therefore mutated in place, contradicting the claimed
copy-and-replace discipline. -/
theorem C8_payment_mutates_shared_history :
    histStore8[0]? = some ⟨"2026-10", 100⟩ ∧
      (makePaymentHeap histStore8 [0] debts8 "1" 20 "2026-10-11").2 = [0] ∧
      (makePaymentHeap histStore8 [0] debts8 "1" 20 "2026-10-11").1[0]? =
        some ⟨"2026-10", 30⟩ ∧
      (⟨"2026-10", 30⟩ : HistEntry) ≠ ⟨"2026-10", 100⟩ := by
  have htake : ("2026-10-11" : String).take 7 = "2026-10" := by decide
  refine ⟨rfl, ?_, ?_, ?_⟩
  · norm_num [makePaymentHeap, histStore8, debts8, htake]
  · norm_num [makePaymentHeap, histStore8, debts8, htake]
  · intro h
    injection h with h1 h2
    exact absurd h2 (by norm_num)
